import Mathlib

set_option maxRecDepth 100000

/-!
Verification development for the nginx-ingress log parser.

The repository feeds each input line through a format-template matcher
(primary access template, error template as fallback), coerces the raw
string fields to typed values, builds a request record, and aggregates the
records in a metric collector whose summary is printed on interrupt or
end of stream.

The template matcher, URL target parsing, timestamp parsing and the
numeric string conversions live outside the repository sources
(third-party gonx and the Go standard library); those parts are modelled
from the specification as noted on each definition.  Everything else is a
direct translation of `internal/parser/parser.go` and
`internal/metric` (the metric collector half of the source file).
Go `float64` values are modelled as exact rationals, Go errors as `none`.
-/

namespace NginxIngress

/-- A compiled format-template segment: a literal anchor or a named
placeholder.  From the spec, section 4.1 (Format Template Compiler). -/
inductive Seg where
  | lit (s : List Char)
  | ph (name : String)
  deriving Repr, DecidableEq

/-- Characters allowed in a `$name` placeholder of a format template. -/
def isVarChar (c : Char) : Bool := c.isLower || c == '_'

/-- Modelled from the spec: compiles a declarative template string of
literal text interleaved with `$field` placeholders into a segment list
(section 4.1).  The gonx compiler itself is not part of the repository
sources.  Fuel-indexed so that the kernel can evaluate it; each step
consumes at least one character, so `length + 1` fuel always suffices. -/
def compileFormatF : Nat → List Char → List Seg
  | 0, _ => []
  | _ + 1, [] => []
  | fuel + 1, c :: cs =>
    if c == '$' then
      .ph (String.mk (cs.takeWhile isVarChar)) :: compileFormatF fuel (cs.dropWhile isVarChar)
    else
      match compileFormatF fuel cs with
      | .lit l :: segs => .lit (c :: l) :: segs
      | segs => .lit [c] :: segs

/-- Compile a format string into a template. -/
def compileFormat (fmt : String) : List Seg :=
  compileFormatF (fmt.data.length + 1) fmt.data

/-- The access-log format string, verbatim from `parser.go`. -/
def nginxIngressLogFormat : String :=
  "$remote_addr - $remote_user [$time_local] \"$request\" $status $body_bytes_sent \"$http_referer\" \"$http_user_agent\" $request_length $request_time [$proxy_upstream_name] [$proxy_alternative_upstream_name] $upstream_addr $upstream_response_length $upstream_response_time $upstream_status $req_id"

/-- The error-log format string, verbatim from `parser.go`. -/
def nginxIngressErrorFormat : String :=
  "$time_date $time_hms [$status] $code: $id $message, client: $upstream_addr, server: $proxy_upstream_name, request: \"$request\", upstream: \"$upstream_full\", host: \"$host\""

/-- The compiled access (primary) template. -/
def accessTemplate : List Seg := compileFormat nginxIngressLogFormat

/-- The compiled error (fallback) template. -/
def errorTemplate : List Seg := compileFormat nginxIngressErrorFormat

/-- `leadsWith p l` is true when `p` is an initial run of `l`. -/
def leadsWith : List Char → List Char → Bool
  | [], _ => true
  | _ :: _, [] => false
  | a :: as, c :: cs => a == c && leadsWith as cs

/-- All ways to cut `cs` as `capture ++ anchor ++ remainder`; returns the
`(capture, remainder)` pairs in order of increasing capture length. -/
def occSplits (anchor : List Char) : List Char → List (List Char × List Char)
  | [] => if anchor.isEmpty then [(([] : List Char), ([] : List Char))] else []
  | c :: cs =>
    (if leadsWith anchor (c :: cs) then
        [(([] : List Char), (c :: cs).drop anchor.length)]
      else []) ++
    (occSplits anchor cs).map (fun p => (c :: p.1, p.2))

/-- Modelled from the spec: the template matcher (section 4.1).  Given a
concrete line it returns the placeholder-to-substring mapping, or fails
when the line's literal structure does not align with the template's
literal anchors.  Matching is greedy between anchors (longest capture
first, backtracking on failure), and the whole line must be consumed.
Fuel-indexed for kernel evaluability; every recursive call drops at least
one segment, so `segments.length + 1` fuel always suffices. -/
def matchSegsF : Nat → List Seg → List Char → Option (List (String × String))
  | 0, _, _ => none
  | _ + 1, [], cs => if cs.isEmpty then some [] else none
  | fuel + 1, .lit l :: rest, cs =>
    if leadsWith l cs then matchSegsF fuel rest (cs.drop l.length) else none
  | _ + 1, [.ph n], cs => some [(n, String.mk cs)]
  | fuel + 1, .ph n :: .lit a :: rest, cs =>
    ((occSplits a cs).reverse.findSome? fun p =>
      (matchSegsF fuel rest p.2).map fun fs => (n, String.mk p.1) :: fs)
  | _ + 1, .ph _ :: .ph _ :: _, _ => none

/-- Match a compiled template against a line. -/
def matchTemplate (segs : List Seg) (line : String) : Option (List (String × String)) :=
  matchSegsF (segs.length + 1) segs line.data

/-- A typed field value: Go stores these as `interface{}` holding an
`int64`, a `float64` (modelled as an exact rational) or a `string`. -/
inductive FieldValue where
  | int (i : Int)
  | float (q : Rat)
  | str (s : String)
  deriving Repr, DecidableEq

/-- Numeric value of a non-empty all-digit character run. -/
def digitsToNat? (cs : List Char) : Option Nat :=
  if cs.isEmpty || !cs.all Char.isDigit then none
  else some (cs.foldl (fun n c => 10 * n + (c.toNat - 48)) 0)

/-- Strip an optional leading sign, returning the sign factor and the
remaining characters. -/
def splitSign (cs : List Char) : Int × List Char :=
  match cs with
  | [] => (1, [])
  | c :: rest =>
    if c = '+' then (1, rest)
    else if c = '-' then (-1, rest)
    else (1, c :: rest)

/-- Modelled from the spec (section 4.3 integer coercion): Go
`strconv.ParseInt(v, 10, 64)` — an optional sign followed by a non-empty
run of decimal digits, rejected when the value overflows a signed 64-bit
integer.  Underscores, which Go accepts only with a base prefix, are not
modelled. -/
def goParseInt (s : String) : Option Int :=
  match digitsToNat? (splitSign s.data).2 with
  | none => none
  | some n =>
    let v : Int := (splitSign s.data).1 * (n : Int)
    if -(2 ^ 63) ≤ v ∧ v ≤ 2 ^ 63 - 1 then some v else none

/-- Modelled from the spec (section 4.3 floating-point coercion): Go
`strconv.ParseFloat(v, 64)` on the decimal forms
`[sign] digits [. digits] [e|E [sign] digits]` with at least one mantissa
digit.  The value is kept as the exact rational the text denotes; Go's
rounding to the nearest binary float64, the `Inf`/`NaN` spellings and hex
floats are not modelled (no field the claims exercise uses them). -/
def goParseFloat (s : String) : Option Rat :=
  let sgn := (splitSign s.data).1
  let cs := (splitSign s.data).2
  let ipart := cs.takeWhile Char.isDigit
  let rest1 := cs.dropWhile Char.isDigit
  let (fpart, rest2) : List Char × List Char :=
    match rest1 with
    | '.' :: r => (r.takeWhile Char.isDigit, r.dropWhile Char.isDigit)
    | r => ([], r)
  if ipart.isEmpty && fpart.isEmpty then none
  else
    let mant : Nat := ((ipart ++ fpart).foldl (fun n c => 10 * n + (c.toNat - 48)) 0)
    let scale : Nat := fpart.length
    match rest2 with
    | [] => some (mkRat (sgn * mant) (10 ^ scale))
    | e :: er =>
      if e == 'e' || e == 'E' then
        let esgn := (splitSign er).1
        let eds := (splitSign er).2
        match digitsToNat? eds with
        | none => none
        | some ev =>
          let eAdj : Int := esgn * (ev : Int) - (scale : Int)
          if 0 ≤ eAdj then some ((sgn * mant * 10 ^ eAdj.toNat : Int) : Rat)
          else some (mkRat (sgn * mant) (10 ^ (-eAdj).toNat))
      else none

/-- Go `strings.Contains(v, string(c))` for a single character. -/
def goContains (s : String) (c : Char) : Bool := s.data.contains c

/-- One entry of `typeifyParsedLine`: `none` means the field is omitted.
Direct translation of the `switch` in `typeifyParsedLine` (`parser.go`):
a value containing a dot is tried as a float, the single-dash sentinel is
dropped, anything else is tried as an integer, and failed numeric parses
keep the original string. -/
def typeifyEntry (v : String) : Option FieldValue :=
  if goContains v '.' then
    match goParseFloat v with
    | some f => some (.float f)
    | none => some (.str v)
  else if v = "-" then none
  else
    match goParseInt v with
    | some i => some (.int i)
    | none => some (.str v)

/-- Translation of `typeifyParsedLine` (`parser.go`): casts the raw
string fields of a matched line to ints or floats where possible. -/
def typeifyParsedLine (pl : List (String × String)) : List (String × FieldValue) :=
  pl.filterMap (fun kv => (typeifyEntry kv.2).map (fun w => (kv.1, w)))

/-- A parsed wall-clock timestamp (the parts Go `time.Parse` produces for
the fixed layout; the offset is kept in minutes). -/
structure GoTime where
  year : Nat
  month : Nat
  day : Nat
  hour : Nat
  minute : Nat
  second : Nat
  tzMinutes : Int
  deriving Repr, DecidableEq

/-- The zero `time.Time` value (January 1, year 1, midnight UTC). -/
def zeroGoTime : GoTime := ⟨1, 1, 1, 0, 0, 0, 0⟩

/-- Three-letter month abbreviations in Go's order. -/
def monthAbbrevs : List String :=
  ["Jan", "Feb", "Mar", "Apr", "May", "Jun", "Jul", "Aug", "Sep", "Oct", "Nov", "Dec"]

/-- Days in a month, with Gregorian leap years. -/
def daysInMonth (year month : Nat) : Nat :=
  if month == 2 then
    if year % 4 == 0 && (year % 100 != 0 || year % 400 == 0) then 29 else 28
  else if month == 4 || month == 6 || month == 9 || month == 11 then 30
  else 31

/-- Take up to `n` leading digits: returns them and the rest. -/
def takeDigits (n : Nat) (cs : List Char) : List Char × List Char :=
  let ds := (cs.take n).takeWhile Char.isDigit
  (ds, cs.drop ds.length)

/-- Modelled from the spec: Go `time.Parse` on the fixed layout
`2/Jan/2006:15:04:05 +0000` (section 6): day of month without a leading
zero (one or two digits), a capitalised month abbreviation, four-digit
year, one- or two-digit hour, two-digit minute and second, then a signed
four-digit numeric zone offset, with range validation as in Go.
Case variants of the month name are not modelled. -/
def parseNginxTime (s : String) : Option GoTime :=
  let cs := s.data
  let (dds, r1) := takeDigits 2 cs
  match digitsToNat? dds with
  | none => none
  | some day =>
    match r1 with
    | '/' :: r2 =>
      let mname := String.mk (r2.take 3)
      let mi := monthAbbrevs.indexOf mname
      if mi ≥ 12 then none
      else
        let month := mi + 1
        match r2.drop 3 with
        | '/' :: r3 =>
            let (yds, r4) := takeDigits 4 r3
            if yds.length != 4 then none
            else
              match digitsToNat? yds, r4 with
              | some year, ':' :: r5 =>
                let (hds, r6) := takeDigits 2 r5
                match digitsToNat? hds, r6 with
                | some hour, ':' :: r7 =>
                  let (mds, r8) := takeDigits 2 r7
                  if mds.length != 2 then none
                  else
                    match digitsToNat? mds, r8 with
                    | some minute, ':' :: r9 =>
                      let (sds, r10) := takeDigits 2 r9
                      if sds.length != 2 then none
                      else
                        match digitsToNat? sds, r10 with
                        | some second, ' ' :: sgn :: z1 :: z2 :: z3 :: z4 :: [] =>
                          if (sgn == '+' || sgn == '-') &&
                              [z1, z2, z3, z4].all Char.isDigit then
                            let zh := (z1.toNat - 48) * 10 + (z2.toNat - 48)
                            let zm := (z3.toNat - 48) * 10 + (z4.toNat - 48)
                            let off : Int :=
                              (if sgn == '-' then -1 else 1) * ((zh * 60 + zm : Nat) : Int)
                            if 1 ≤ day ∧ day ≤ daysInMonth year month ∧
                                hour < 24 ∧ minute < 60 ∧ second < 60 then
                              some ⟨year, month, day, hour, minute, second, off⟩
                            else none
                          else none
                        | _, _ => none
                    | _, _ => none
                | _, _ => none
              | _, _ => none
        | _ => none
    | _ => none

/-- The parsed request sub-record, translation of `Request` in
`parser.go`. -/
structure Request where
  Method : String
  Path : String
  Query : String
  deriving Repr, DecidableEq

/-- Translation of `NginxResult` in `parser.go`.  `RemoteAddr` and
`RemoteUser` keep their Go zero values (the builder never assigns them);
`Request` is a nullable pointer, hence an `Option`. -/
structure NginxResult where
  RemoteAddr : String := ""
  RemoteUser : String := ""
  UpstreamAddr : String := ""
  TimeLocal : GoTime := zeroGoTime
  Request : Option Request := none
  RequestTime : Rat := 0
  UpstreamStatus : Int := 0
  TimedOut : Bool := false
  deriving Repr, DecidableEq

/-- Translation of `toString` (`parser.go`): the field must exist and
hold a string. -/
def toStringField (line : List (String × FieldValue)) (field : String) : Option String :=
  match line.lookup field with
  | some (.str s) => some s
  | _ => none

/-- Translation of `toFloat64` (`parser.go`): the field must exist and
hold a float. -/
def toFloat64 (line : List (String × FieldValue)) (field : String) : Option Rat :=
  match line.lookup field with
  | some (.float q) => some q
  | _ => none

/-- Translation of `toInt64` (`parser.go`): the field must exist and
hold an int. -/
def toInt64 (line : List (String × FieldValue)) (field : String) : Option Int :=
  match line.lookup field with
  | some (.int i) => some i
  | _ => none

/-- Go `strings.Split` on a single-character separator: splits at every
occurrence, keeping empty tokens. -/
def splitOn (sep : Char) : List Char → List (List Char)
  | [] => [[]]
  | c :: cs =>
    let r := splitOn sep cs
    if c == sep then [] :: r
    else
      match r with
      | h :: t => (c :: h) :: t
      | [] => [[c]]

/-- Modelled from the spec: the request target is parsed with standard
URL path/query semantics against the dummy base `http://localhost`
(section 4.4) — the authority is discarded, the path runs to the first
`?` or `#`, the raw query follows the `?` up to any `#`.  Percent
decoding of the path is not modelled (no claim exercises escapes). -/
def urlPathQuery (target : List Char) : String × String :=
  let full := ("localhost".data) ++ target
  let rem := full.dropWhile (fun c => !(c == '/' || c == '?' || c == '#'))
  let path := rem.takeWhile (fun c => !(c == '?' || c == '#'))
  let afterPath := rem.dropWhile (fun c => !(c == '?' || c == '#'))
  match afterPath with
  | '?' :: qs => (String.mk path, String.mk (qs.takeWhile (fun c => !(c == '#'))))
  | _ => (String.mk path, "")

/-- Translation of `requestStringToReq` (`parser.go`): the raw request
string must split on spaces into exactly three tokens; the second token
is the target, interpreted per `urlPathQuery`. -/
def requestStringToReq (str : String) : Option Request :=
  match splitOn ' ' str.data with
  | [m, t, _p] =>
    let pq := urlPathQuery t
    some ⟨String.mk m, pq.1, pq.2⟩
  | _ => none

/-- The `upstream_addr` extraction shared by both record builders: a
missing or mistyped field falls back to `0.0.0.0` (the commented-out
`return nil, err` in the source never fires). -/
def upstreamAddrOrDefault (line : List (String × FieldValue)) : String :=
  match toStringField line "upstream_addr" with
  | some s => s
  | none => "0.0.0.0"

/-- Translation of `parsedLineToResult` (`parser.go`): builds the access
record.  A missing or mistyped `upstream_addr` is tolerated (defaults to
`0.0.0.0`); every later required field failure aborts with an error. -/
def parsedLineToResult (line : List (String × FieldValue)) : Option NginxResult :=
  match toFloat64 line "request_time" with
  | none => none
  | some rt =>
    match toStringField line "time_local" with
    | none => none
    | some tl =>
      match parseNginxTime tl with
      | none => none
      | some t =>
        match toInt64 line "upstream_status" with
        | none => none
        | some us =>
          match toStringField line "request" with
          | none => none
          | some rq =>
            match requestStringToReq rq with
            | none => none
            | some req =>
              some { UpstreamAddr := upstreamAddrOrDefault line, TimeLocal := t,
                     Request := some req, RequestTime := rt,
                     UpstreamStatus := us, TimedOut := false }

/-- Translation of `parsedErrLineToResult` (`parser.go`): builds the
error-path record with the gateway-timeout status 504 and the timeout
flag forced, tolerating a missing `upstream_addr`. -/
def parsedErrLineToResult (line : List (String × FieldValue)) : Option NginxResult :=
  match toStringField line "request" with
  | none => none
  | some rq =>
    match requestStringToReq rq with
    | none => none
    | some req =>
      some { UpstreamAddr := upstreamAddrOrDefault line, Request := some req,
             UpstreamStatus := 504, TimedOut := true }

/-- Translation of `NginxParser.Parse` (`parser.go`): match the access
template; only when that match itself fails, fall back to the error
template.  Errors are modelled as `none`. -/
def nginxParse (line : String) : Option NginxResult :=
  match matchTemplate accessTemplate line with
  | some fields => parsedLineToResult (typeifyParsedLine fields)
  | none =>
    match matchTemplate errorTemplate line with
    | none => none
    | some fields => parsedErrLineToResult (typeifyParsedLine fields)

/-- One latency sample, translation of `LatencyMetric` (metric
collector source). -/
structure LatencyMetric where
  latency : Rat
  time : GoTime
  deriving Repr, DecidableEq

/-- Translation of `LatencyMetricList`: the upstream IP recorded at
bucket creation plus the ordered samples. -/
structure LatencyMetricList where
  IP : String
  Latencies : List LatencyMetric
  deriving Repr, DecidableEq

/-- Translation of `ResponseMetric` (`map[int64]uint`): a status-code
histogram, as an association list with unique keys. -/
abbrev ResponseMetric := List (Int × Nat)

/-- Translation of `TimedOutMetric`. -/
structure TimedOutMetric where
  Count : Nat := 0
  Total : Nat := 0
  deriving Repr, DecidableEq

/-- Store a key's value in an association list: replaces the first
binding in place, or appends a new one (Go map update). -/
def setAssoc {α β : Type} [DecidableEq α] : List (α × β) → α → β → List (α × β)
  | [], k, v => [(k, v)]
  | (k0, v0) :: rest, k, v =>
    if k0 = k then (k, v) :: rest else (k0, v0) :: setAssoc rest k v

/-- Translation of `MetricCollector` (grouping is always by request
path in `AddLine`; the `group`/`metric` mode fields are never read, so
they are omitted).  The lazily allocated Go maps start as the empty
map here. -/
structure MetricCollector where
  latencyData : List (String × LatencyMetricList) := []
  responseData : List (String × ResponseMetric) := []
  timedOutData : List (String × TimedOutMetric) := []
  deriving Repr, DecidableEq

/-- The collector returned by `NewMetricCollector`. -/
def emptyCollector : MetricCollector := {}

/-- One histogram increment: translation of the `respBucket` update in
`AddLine` (create the entry at 1, or increment it). -/
def bumpStatus (b : ResponseMetric) (s : Int) : ResponseMetric :=
  match b.lookup s with
  | none => setAssoc b s 1
  | some n => setAssoc b s (n + 1)

/-- Translation of `MetricCollector.AddLine`: a nil record or a record
without a request is dropped; otherwise the record is keyed by its
request path, appended to the latency bucket unless it timed out, and
counted in the response histogram and the timeout counters. -/
def addLine (m : MetricCollector) (result : Option NginxResult) (_rawLine : String) :
    MetricCollector :=
  match result with
  | none => m
  | some r =>
    match r.Request with
    | none => m
    | some req =>
      let group := req.Path
      let latencyData :=
        if r.TimedOut then m.latencyData
        else
          let bucket := (m.latencyData.lookup group).getD ⟨r.UpstreamAddr, []⟩
          setAssoc m.latencyData group
            ⟨bucket.IP, bucket.Latencies ++ [⟨r.RequestTime, r.TimeLocal⟩]⟩
      let responseData :=
        setAssoc m.responseData group
          (bumpStatus ((m.responseData.lookup group).getD []) r.UpstreamStatus)
      let tm := (m.timedOutData.lookup group).getD {}
      let timedOutData :=
        setAssoc m.timedOutData group
          { Count := tm.Count + (if r.TimedOut then 1 else 0), Total := tm.Total + 1 }
      { latencyData, responseData, timedOutData }

/-- Feed a list of records through `addLine`, starting from the fresh
collector. -/
def addLines (rs : List (Option NginxResult)) : MetricCollector :=
  rs.foldl (fun m r => addLine m r "") emptyCollector

/-- The data `GetInfo` prints, section by section. -/
structure Report where
  countReqs : Nat
  respSection : List (String × ResponseMetric)
  timeoutSection : List (String × TimedOutMetric)
  latencySection : List (String × Rat × Nat)
  numOver2s : Nat
  pctOver2s : Rat
  deriving Repr, DecidableEq

/-- Translation of `MetricCollector.GetInfo`, with the printed output
reified as a `Report` and the collector state threaded through
explicitly (the Go method only reads the maps).  `countReqs` is the
total tracked sample count; the response section keeps the groups with
some status at least 400 and more than 100 requests; the timeout
section keeps the groups with a positive timeout count and more than
100 totals; the latency section lists each group's mean latency and
sample count; `numOver2s` counts the samples with latency above 2000,
with its percentage of all tracked samples. -/
def getInfo (m : MetricCollector) : MetricCollector × Report :=
  let countReqs := m.latencyData.foldl (fun n pb => n + pb.2.Latencies.length) 0
  let respSection := m.responseData.filter (fun pb =>
    (pb.2.foldl (fun a cn => a || decide (400 ≤ cn.1)) false) &&
    decide (100 < pb.2.foldl (fun t cn => t + cn.2) 0))
  let timeoutSection := m.timedOutData.filter (fun ptm =>
    decide (0 < ptm.2.Count) && decide (100 < ptm.2.Total))
  let latencySection := m.latencyData.map (fun pb =>
    (pb.1, (pb.2.Latencies.foldl (fun t l => t + l.latency) 0) / (pb.2.Latencies.length : Rat),
      pb.2.Latencies.length))
  let numOver2s := m.latencyData.foldl (fun n pb =>
    pb.2.Latencies.foldl (fun n2 l => if (2000 : Rat) < l.latency then n2 + 1 else n2) n) 0
  (m, { countReqs, respSection, timeoutSection, latencySection, numOver2s,
        pctOver2s := 100 * (numOver2s : Rat) / (countReqs : Rat) })

/-- Specification-side count of tracked samples: the summed lengths of
all latency buckets. -/
def countTracked (m : MetricCollector) : Nat :=
  (m.latencyData.map (fun pb => pb.2.Latencies.length)).sum

/-- Specification-side count of latency samples strictly above a
threshold, over all groups. -/
def samplesOver (t : Rat) (m : MetricCollector) : Nat :=
  (m.latencyData.map (fun pb =>
    (pb.2.Latencies.filter (fun l => decide (t < l.latency))).length)).sum

/-- Total request count of a histogram. -/
def histTotal (b : ResponseMetric) : Nat := (b.map (fun cn => cn.2)).sum

/-- The latency samples recorded for a group (empty when the group has
no bucket). -/
def latencyAt (m : MetricCollector) (key : String) : List LatencyMetric :=
  ((m.latencyData.lookup key).map (fun b => b.Latencies)).getD []

/-- The timeout counters recorded for a group. -/
def timedOutAt (m : MetricCollector) (key : String) : TimedOutMetric :=
  (m.timedOutData.lookup key).getD {}

/-- The response histogram recorded for a group. -/
def histAt (m : MetricCollector) (key : String) : ResponseMetric :=
  (m.responseData.lookup key).getD []

/-! Concrete inputs used by the claim witnesses and counterexamples. -/

/-- A well-formed access-log line. -/
def accessLineW : String :=
  "1.2.3.4 - u [2/Jan/2006:15:04:05 +0000] \"GET /foo/bar?x=1 HTTP/1.1\" 200 5 \"r\" \"ua\" 10 0.5 [p] [q] 10.0.0.1 20 0.4 200 abc"

/-- The fields the access template extracts from `accessLineW`. -/
def accessFieldsW : List (String × String) :=
  [("remote_addr", "1.2.3.4"), ("remote_user", "u"),
   ("time_local", "2/Jan/2006:15:04:05 +0000"),
   ("request", "GET /foo/bar?x=1 HTTP/1.1"), ("status", "200"),
   ("body_bytes_sent", "5"), ("http_referer", "r"), ("http_user_agent", "ua"),
   ("request_length", "10"), ("request_time", "0.5"),
   ("proxy_upstream_name", "p"), ("proxy_alternative_upstream_name", "q"),
   ("upstream_addr", "10.0.0.1"), ("upstream_response_length", "20"),
   ("upstream_response_time", "0.4"), ("upstream_status", "200"),
   ("req_id", "abc")]

/-- The record `Parse` builds from `accessLineW`. -/
def accessResW : NginxResult :=
  { UpstreamAddr := "10.0.0.1", TimeLocal := ⟨2006, 1, 2, 15, 4, 5, 0⟩,
    Request := some ⟨"GET", "/foo/bar", "x=1"⟩, RequestTime := mkRat 1 2,
    UpstreamStatus := 200, TimedOut := false }

/-- A well-formed error-log line that the access template rejects. -/
def errLineW : String :=
  "2026/01/02 03:04:05 [error] 31: 7 upstream timed out, client: 1.2.3.4, server: svc, request: \"GET /a?b=1 HTTP/1.1\", upstream: \"up\", host: \"example.com\""

/-- The fields the error template extracts from `errLineW` (captures are
greedy, hence the long `id` capture). -/
def errFieldsW : List (String × String) :=
  [("time_date", "2026/01/02"), ("time_hms", "03:04:05"), ("status", "error"),
   ("code", "31"), ("id", "7 upstream timed"), ("message", "out"),
   ("upstream_addr", "1.2.3.4"), ("proxy_upstream_name", "svc"),
   ("request", "GET /a?b=1 HTTP/1.1"), ("upstream_full", "up"),
   ("host", "example.com")]

/-- The record `Parse` builds from `errLineW` via the fallback path. -/
def errResW : NginxResult :=
  { UpstreamAddr := "1.2.3.4", Request := some ⟨"GET", "/a", "b=1"⟩,
    UpstreamStatus := 504, TimedOut := true }

/-- A line whose literal structure matches BOTH templates.  Its access
fields put the integer `9` in `request_time`, so the access record build
fails after the access match succeeds, while the error template would
parse the line to a valid timed-out record. -/
def dualLineW : String :=
  "A B [e] c: i x - y [t] \"G /p H\" 7 8 \"r\" \"u\" 9 9 [pn] [an] m, client: 6.6.6.6, server: s, request: \"GET /q HTTP/1.1\", upstream: \"uf\", host: \"h\""

/-- The record the error fallback would build from `dualLineW`. -/
def dualErrResW : NginxResult :=
  { UpstreamAddr := "6.6.6.6", Request := some ⟨"GET", "/q", ""⟩,
    UpstreamStatus := 504, TimedOut := true }

/-- An access line whose `request_time` is the whole number `3`. -/
def intRtLineW : String :=
  "1.2.3.4 - u [2/Jan/2006:15:04:05 +0000] \"GET /a HTTP/1.1\" 200 5 \"r\" \"ua\" 10 3 [p] [q] 10.0.0.1 20 0.4 200 xyz"

/-- The fields the access template extracts from `intRtLineW`. -/
def intRtFieldsW : List (String × String) :=
  [("remote_addr", "1.2.3.4"), ("remote_user", "u"),
   ("time_local", "2/Jan/2006:15:04:05 +0000"), ("request", "GET /a HTTP/1.1"),
   ("status", "200"), ("body_bytes_sent", "5"), ("http_referer", "r"),
   ("http_user_agent", "ua"), ("request_length", "10"), ("request_time", "3"),
   ("proxy_upstream_name", "p"), ("proxy_alternative_upstream_name", "q"),
   ("upstream_addr", "10.0.0.1"), ("upstream_response_length", "20"),
   ("upstream_response_time", "0.4"), ("upstream_status", "200"),
   ("req_id", "xyz")]

/-- The group all aggregation-witness records share. -/
def reqW : Request := ⟨"GET", "/svc", ""⟩

/-- A non-timed-out record for the aggregation witness. -/
def recOkW : NginxResult :=
  { UpstreamAddr := "9.9.9.9", Request := some reqW, RequestTime := mkRat 1 2,
    UpstreamStatus := 200, TimedOut := false }

/-- A timed-out record for the aggregation witness. -/
def recTimeoutW : NginxResult :=
  { UpstreamAddr := "9.9.9.9", Request := some reqW, UpstreamStatus := 504,
    TimedOut := true }

/-- A record whose latency (3) exceeds 2 but not 2000. -/
def recOver2W : NginxResult :=
  { UpstreamAddr := "1.1.1.1", Request := some ⟨"GET", "/c7", ""⟩,
    RequestTime := 3, UpstreamStatus := 200, TimedOut := false }

/-- A collector holding exactly the one sample of `recOver2W`. -/
def overThresholdState : MetricCollector :=
  addLine emptyCollector (some recOver2W) ""

/-- The fields the access template (greedily) extracts from `dualLineW`;
`request_time` captures the integer text `9`. -/
def dualFieldsW : List (String × String) :=
  [("remote_addr", "A B [e] c: i x"), ("remote_user", "y"), ("time_local", "t"),
   ("request", "G /p H"), ("status", "7"), ("body_bytes_sent", "8"),
   ("http_referer", "r"), ("http_user_agent", "u"), ("request_length", "9"),
   ("request_time", "9"), ("proxy_upstream_name", "pn"),
   ("proxy_alternative_upstream_name", "an"),
   ("upstream_addr", "m, client: 6.6.6.6, server: s, request: \"GET /q HTTP/1.1\","),
   ("upstream_response_length", "upstream:"),
   ("upstream_response_time", "\"uf\","), ("upstream_status", "host:"),
   ("req_id", "\"h\"")]

/-! Helper lemmas. -/

theorem contains_false_iff (l : List Char) (c : Char) :
    l.contains c = false ↔ c ∉ l := by
  show List.elem c l = false ↔ _
  rw [List.elem_eq_mem]
  simp

theorem all_isDigit_no_dot (l : List Char) (h : l.all Char.isDigit = true) :
    l.contains '.' = false :=
  (contains_false_iff l '.').mpr fun hmem =>
    absurd (List.all_eq_true.mp h _ hmem) (by decide)

theorem digitsToNat?_all (cs : List Char) (n : Nat) (h : digitsToNat? cs = some n) :
    cs.all Char.isDigit = true := by
  unfold digitsToNat? at h
  split at h
  · exact Option.noConfusion h
  · next hcond =>
    rcases Bool.eq_false_or_eq_true (cs.all Char.isDigit) with ht | hf
    · exact ht
    · exact absurd (by rw [hf]; simp) hcond

theorem splitSign_no_dot (cs : List Char)
    (h : (splitSign cs).2.all Char.isDigit = true) : cs.contains '.' = false := by
  refine (contains_false_iff cs '.').mpr fun hmem => ?_
  cases cs with
  | nil => exact absurd hmem (List.not_mem_nil _)
  | cons c rest =>
    rw [show splitSign (c :: rest) =
        if c = '+' then (1, rest) else if c = '-' then (-1, rest) else (1, c :: rest)
      from rfl] at h
    split_ifs at h with h1 h2
    · rcases List.mem_cons.mp hmem with he | hr
      · rw [h1] at he; exact absurd he (by decide)
      · exact absurd hr ((contains_false_iff rest '.').mp (all_isDigit_no_dot rest h))
    · rcases List.mem_cons.mp hmem with he | hr
      · rw [h2] at he; exact absurd he (by decide)
      · exact absurd hr ((contains_false_iff rest '.').mp (all_isDigit_no_dot rest h))
    · exact absurd hmem
        ((contains_false_iff (c :: rest) '.').mp (all_isDigit_no_dot _ h))

theorem goParseInt_no_dot (v : String) (i : Int) (h : goParseInt v = some i) :
    goContains v '.' = false := by
  unfold goParseInt at h
  split at h
  · exact Option.noConfusion h
  · next n hd =>
    exact splitSign_no_dot _ (digitsToNat?_all _ _ hd)

theorem lookup_setAssoc_self {α β : Type} [DecidableEq α] [BEq α] [LawfulBEq α]
    (l : List (α × β)) (k : α) (v : β) : (setAssoc l k v).lookup k = some v := by
  induction l with
  | nil => simp [setAssoc, List.lookup]
  | cons p t ih =>
    rcases p with ⟨k0, v0⟩
    unfold setAssoc
    by_cases h : k0 = k
    · subst h
      simp [List.lookup]
    · have hb : (k == k0) = false :=
        beq_eq_false_iff_ne.mpr (fun he => h he.symm)
      simp [h, List.lookup, hb, ih]

theorem typeify_lookup (pl : List (String × String)) (k v : String) (w : FieldValue)
    (h1 : pl.lookup k = some v) (h2 : typeifyEntry v = some w) :
    (typeifyParsedLine pl).lookup k = some w := by
  induction pl with
  | nil => exact Option.noConfusion h1
  | cons p t ih =>
    rcases p with ⟨k0, v0⟩
    simp only [typeifyParsedLine, List.filterMap_cons] at *
    by_cases hk : k = k0
    · subst hk
      rw [List.lookup, beq_self_eq_true] at h1
      have hv : v0 = v := Option.some.inj h1
      subst hv
      rw [h2]
      simp [List.lookup]
    · have hb : (k == k0) = false := by simp [hk]
      rw [List.lookup, hb] at h1
      rcases he : typeifyEntry v0 with _ | w0
      · simpa using ih h1
      · simpa [List.lookup, hb] using ih h1

theorem parsedLineToResult_fields (line : List (String × FieldValue))
    (res : NginxResult) (h : parsedLineToResult line = some res) :
    res.TimedOut = false ∧ toInt64 line "upstream_status" = some res.UpstreamStatus := by
  unfold parsedLineToResult at h
  split at h
  · exact Option.noConfusion h
  split at h
  · exact Option.noConfusion h
  split at h
  · exact Option.noConfusion h
  split at h
  · exact Option.noConfusion h
  next us hus =>
  split at h
  · exact Option.noConfusion h
  split at h
  · exact Option.noConfusion h
  rw [Option.some.injEq] at h
  subst h
  exact ⟨rfl, hus⟩

theorem parsedErrLineToResult_fields (line : List (String × FieldValue))
    (res : NginxResult) (h : parsedErrLineToResult line = some res) :
    res.TimedOut = true ∧ res.UpstreamStatus = 504 := by
  unfold parsedErrLineToResult at h
  split at h
  · exact Option.noConfusion h
  split at h
  · exact Option.noConfusion h
  rw [Option.some.injEq] at h
  subst h
  exact ⟨rfl, rfl⟩

theorem nginxParse_on_access (line : String) (f : List (String × String))
    (h : matchTemplate accessTemplate line = some f) :
    nginxParse line = parsedLineToResult (typeifyParsedLine f) := by
  unfold nginxParse
  rw [h]

theorem nginxParse_on_err (line : String) (f : List (String × String))
    (h1 : matchTemplate accessTemplate line = none)
    (h2 : matchTemplate errorTemplate line = some f) :
    nginxParse line = parsedErrLineToResult (typeifyParsedLine f) := by
  unfold nginxParse
  rw [h1, h2]

theorem setAssoc_not_mem {α β : Type} [DecidableEq α] [BEq α] [LawfulBEq α]
    (l : List (α × β)) (k : α) (v : β) (h : l.lookup k = none) :
    setAssoc l k v = l ++ [(k, v)] := by
  induction l with
  | nil => rfl
  | cons p t ih =>
    rcases p with ⟨k0, v0⟩
    by_cases hk : k0 = k
    · subst hk
      rw [List.lookup, beq_self_eq_true] at h
      exact Option.noConfusion h
    · have hb : (k == k0) = false :=
        beq_eq_false_iff_ne.mpr (fun he => hk he.symm)
      rw [List.lookup, hb] at h
      simp [setAssoc, hk, ih h]

theorem histTotal_setAssoc_incr (b : ResponseMetric) (s : Int) (n : Nat)
    (h : b.lookup s = some n) :
    histTotal (setAssoc b s (n + 1)) = histTotal b + 1 := by
  induction b with
  | nil => exact Option.noConfusion h
  | cons p t ih =>
    rcases p with ⟨k0, v0⟩
    by_cases hk : k0 = s
    · subst hk
      rw [List.lookup, beq_self_eq_true] at h
      have hv : v0 = n := Option.some.inj h
      subst hv
      simp [setAssoc, histTotal]
      omega
    · have hb : (s == k0) = false :=
        beq_eq_false_iff_ne.mpr (fun he => hk he.symm)
      rw [List.lookup, hb] at h
      simp only [setAssoc, hk, if_false, histTotal, List.map_cons, List.sum_cons] at *
      rw [ih h]
      omega

theorem histTotal_bumpStatus (b : ResponseMetric) (s : Int) :
    histTotal (bumpStatus b s) = histTotal b + 1 := by
  unfold bumpStatus
  rcases hl : b.lookup s with _ | n
  · rw [setAssoc_not_mem b s 1 hl]
    simp [histTotal]
  · exact histTotal_setAssoc_incr b s n hl

theorem addLine_same_key (m : MetricCollector) (r : NginxResult) (req : Request)
    (raw : String) (hr : r.Request = some req) :
    histTotal (histAt (addLine m (some r) raw) req.Path) =
      histTotal (histAt m req.Path) + 1 ∧
    (timedOutAt (addLine m (some r) raw) req.Path).Total =
      (timedOutAt m req.Path).Total + 1 ∧
    (timedOutAt (addLine m (some r) raw) req.Path).Count =
      (timedOutAt m req.Path).Count + (if r.TimedOut then 1 else 0) ∧
    latencyAt (addLine m (some r) raw) req.Path =
      latencyAt m req.Path ++
        (if r.TimedOut then [] else [⟨r.RequestTime, r.TimeLocal⟩]) := by
  unfold addLine
  simp only [hr]
  refine ⟨?_, ?_, ?_, ?_⟩
  · simp [histAt, lookup_setAssoc_self, histTotal_bumpStatus]
  · simp [timedOutAt, lookup_setAssoc_self]
  · simp [timedOutAt, lookup_setAssoc_self]
  · by_cases ht : r.TimedOut
    · simp [latencyAt, ht]
    · simp only [latencyAt, ht, if_false, Bool.false_eq_true,
        lookup_setAssoc_self]
      rcases hl : m.latencyData.lookup req.Path with _ | bucket
      · simp [hl]
      · simp [hl]

theorem addLines_accum (rs : List NginxResult) (key : String)
    (h : ∀ r ∈ rs, ∃ req, r.Request = some req ∧ req.Path = key)
    (m : MetricCollector) :
    histTotal (histAt (rs.foldl (fun a r => addLine a (some r) "") m) key) =
      histTotal (histAt m key) + rs.length ∧
    (timedOutAt (rs.foldl (fun a r => addLine a (some r) "") m) key).Total =
      (timedOutAt m key).Total + rs.length ∧
    (timedOutAt (rs.foldl (fun a r => addLine a (some r) "") m) key).Count =
      (timedOutAt m key).Count + (rs.filter (fun r => r.TimedOut)).length ∧
    latencyAt (rs.foldl (fun a r => addLine a (some r) "") m) key =
      latencyAt m key ++
        (rs.filter (fun r => !r.TimedOut)).map
          (fun r => ⟨r.RequestTime, r.TimeLocal⟩) := by
  induction rs generalizing m with
  | nil => simp
  | cons r t ih =>
    obtain ⟨req, hr, hp⟩ := h r (List.mem_cons_self r t)
    have hrest : ∀ x ∈ t, ∃ req, x.Request = some req ∧ req.Path = key :=
      fun x hx => h x (List.mem_cons_of_mem r hx)
    have step := addLine_same_key m r req "" hr
    rw [hp] at step
    have ihm := ih hrest (addLine m (some r) "")
    simp only [List.foldl_cons]
    refine ⟨?_, ?_, ?_, ?_⟩
    · rw [ihm.1, step.1]
      simp
      omega
    · rw [ihm.2.1, step.2.1]
      simp
      omega
    · rw [ihm.2.2.1, step.2.2.1]
      by_cases hto : r.TimedOut
      · simp [hto, List.filter_cons]
        omega
      · simp [hto, List.filter_cons]
    · rw [ihm.2.2.2, step.2.2.2]
      by_cases hto : r.TimedOut
      · simp [hto, List.filter_cons, List.append_assoc]
      · simp [hto, List.filter_cons, List.append_assoc]

theorem foldl_add_eq_sum {α : Type} (f : α → Nat) (l : List α) (n : Nat) :
    l.foldl (fun t x => t + f x) n = n + (l.map f).sum := by
  induction l generalizing n with
  | nil => simp
  | cons x t ih =>
    simp only [List.foldl_cons, List.map_cons, List.sum_cons, ih]
    omega

theorem foldl_or_eq_any {α : Type} (p : α → Bool) (l : List α) (a : Bool) :
    l.foldl (fun acc x => acc || p x) a = (a || l.any p) := by
  induction l generalizing a with
  | nil => simp
  | cons x t ih => simp [ih, Bool.or_assoc]

theorem foldl_count_over (t : Rat) (l : List LatencyMetric) (n : Nat) :
    l.foldl (fun n2 s => if t < s.latency then n2 + 1 else n2) n =
      n + (l.filter (fun s => decide (t < s.latency))).length := by
  induction l generalizing n with
  | nil => simp
  | cons x xs ih =>
    simp only [List.foldl_cons, List.filter_cons]
    by_cases hx : t < x.latency
    · rw [if_pos hx, ih, decide_eq_true hx, if_pos rfl]
      simp only [List.length_cons]
      omega
    · rw [if_neg hx, ih, decide_eq_false hx, if_neg (by simp)]

theorem foldl_buckets_count (t : Rat) (l : List (String × LatencyMetricList))
    (n : Nat) :
    l.foldl (fun acc pb =>
        pb.2.Latencies.foldl
          (fun n2 s => if t < s.latency then n2 + 1 else n2) acc) n =
      n + (l.map (fun pb =>
        (pb.2.Latencies.filter (fun s => decide (t < s.latency))).length)).sum := by
  induction l generalizing n with
  | nil => simp
  | cons x xs ih =>
    simp only [List.foldl_cons, List.map_cons, List.sum_cons]
    rw [foldl_count_over, ih]
    omega

/-! Claim theorems. -/

/-- Claim C2: for every line on which `Parse` succeeds via the access
(primary) template, the returned record has `TimedOut = false` and
`UpstreamStatus` equal to the status value coerced from the line's
`upstream_status` field. -/
theorem claim_c2_access_success (line : String) (f : List (String × String))
    (res : NginxResult)
    (hm : matchTemplate accessTemplate line = some f)
    (hb : parsedLineToResult (typeifyParsedLine f) = some res) :
    nginxParse line = some res ∧ res.TimedOut = false ∧
      toInt64 (typeifyParsedLine f) "upstream_status" = some res.UpstreamStatus := by
  have hp := nginxParse_on_access line f hm
  have hf := parsedLineToResult_fields _ _ hb
  exact ⟨hp.trans hb, hf.1, hf.2⟩

/-- Witness for claim C2: a concrete access line parses to a record with
`TimedOut = false` and `UpstreamStatus = 200`. -/
theorem claim_c2_witness :
    nginxParse accessLineW = some accessResW ∧ accessResW.TimedOut = false ∧
      toInt64 (typeifyParsedLine accessFieldsW) "upstream_status" =
        some accessResW.UpstreamStatus :=
  claim_c2_access_success accessLineW accessFieldsW accessResW
    (by decide) (by decide)

/-- Claim C3: every line that fails the access template but parses via
the error (fallback) template yields a record with `TimedOut = true` and
`UpstreamStatus` fixed to 504, regardless of any status-like field value
the line carries. -/
theorem claim_c3_error_fallback (line : String) (f : List (String × String))
    (res : NginxResult)
    (hna : matchTemplate accessTemplate line = none)
    (hm : matchTemplate errorTemplate line = some f)
    (hb : parsedErrLineToResult (typeifyParsedLine f) = some res) :
    nginxParse line = some res ∧ res.TimedOut = true ∧ res.UpstreamStatus = 504 := by
  have hp := nginxParse_on_err line f hna hm
  have hf := parsedErrLineToResult_fields _ _ hb
  exact ⟨hp.trans hb, hf.1, hf.2⟩

/-- Witness for claim C3: a concrete error line (whose `status` capture
is the non-numeric `error`) parses to a 504 timed-out record. -/
theorem claim_c3_witness :
    nginxParse errLineW = some errResW ∧ errResW.TimedOut = true ∧
      errResW.UpstreamStatus = 504 :=
  claim_c3_error_fallback errLineW errFieldsW errResW
    (by decide) (by decide) (by decide)

/-- Counterexample for claim C1: `dualLineW` matches the access
template's literal structure, its required `request_time` field fails
float coercion, and the error template would parse the line to a valid
timed-out record — yet `Parse` returns an error instead of falling back
to the error template. -/
theorem claim_c1_counterexample :
    (matchTemplate accessTemplate dualLineW).isSome = true ∧
    (matchTemplate accessTemplate dualLineW).bind
        (fun f => parsedLineToResult (typeifyParsedLine f)) = none ∧
    (matchTemplate errorTemplate dualLineW).bind
        (fun f => parsedErrLineToResult (typeifyParsedLine f)) = some dualErrResW ∧
    nginxParse dualLineW = none := by
  refine ⟨by decide, by decide, by decide, by decide⟩

/-- Claim C1 amended: when a line matches the access template's literal
structure but a required field then fails coercion or record building,
`Parse` returns that error immediately, without consulting the error
template; the error-template fallback runs only when the access match
itself fails. -/
theorem claim_c1_amended (line : String) (f : List (String × String))
    (h1 : matchTemplate accessTemplate line = some f)
    (h2 : parsedLineToResult (typeifyParsedLine f) = none) :
    nginxParse line = none := by
  rw [nginxParse_on_access line f h1]
  exact h2

/-- Witness for the amended claim C1 at the concrete line `dualLineW`. -/
theorem claim_c1_amended_witness : nginxParse dualLineW = none :=
  claim_c1_amended dualLineW dualFieldsW (by decide) (by decide)

/-- Claim C10: on every line matching the access template whose
`request_time` raw text has no decimal point and parses as an integer,
type coercion stores the field as an integer, the float extraction of
`request_time` fails, and `Parse` returns an error even though the
access template matched. -/
theorem claim_c10_int_request_time (line : String) (f : List (String × String))
    (v : String) (i : Int)
    (h1 : matchTemplate accessTemplate line = some f)
    (h2 : f.lookup "request_time" = some v)
    (h3 : goContains v '.' = false)
    (h4 : goParseInt v = some i) :
    (typeifyParsedLine f).lookup "request_time" = some (.int i) ∧
    toFloat64 (typeifyParsedLine f) "request_time" = none ∧
    nginxParse line = none := by
  have hvd : v ≠ "-" := fun he => by
    rw [he] at h4
    exact Option.noConfusion (h4.symm.trans (by decide : goParseInt "-" = none))
  have he : typeifyEntry v = some (.int i) := by
    unfold typeifyEntry
    rw [h3]
    simp only [Bool.false_eq_true, if_false, if_neg hvd, h4]
  have hl := typeify_lookup f "request_time" v (.int i) h2 he
  have hfl : toFloat64 (typeifyParsedLine f) "request_time" = none := by
    unfold toFloat64
    rw [hl]
  refine ⟨hl, hfl, ?_⟩
  rw [nginxParse_on_access line f h1]
  unfold parsedLineToResult
  rw [hfl]

/-- Witness for claim C10: a concrete access line with `request_time`
text `3` is rejected by `Parse`. -/
theorem claim_c10_witness :
    (typeifyParsedLine intRtFieldsW).lookup "request_time" =
      some (FieldValue.int 3) ∧
    toFloat64 (typeifyParsedLine intRtFieldsW) "request_time" = none ∧
    nginxParse intRtLineW = none :=
  claim_c10_int_request_time intRtLineW intRtFieldsW "3" 3
    (by decide) (by decide) (by decide) (by decide)

/-- Claim C4: type coercion per field — the single-dash sentinel is
omitted; a value containing a decimal point that parses as a float
becomes that float; otherwise a value that parses as an integer becomes
that integer (a value with a dot can never parse as an integer); any
other value stays a string.  Includes the spec's four examples. -/
theorem claim_c4_type_coercion :
    (∀ (pl : List (String × String)) (k : String),
        typeifyParsedLine ((k, "-") :: pl) = typeifyParsedLine pl) ∧
    (∀ (pl : List (String × String)) (k v : String) (q : Rat),
        goContains v '.' = true → goParseFloat v = some q →
        typeifyParsedLine ((k, v) :: pl) = (k, .float q) :: typeifyParsedLine pl) ∧
    (∀ (pl : List (String × String)) (k v : String) (i : Int),
        goContains v '.' = false → v ≠ "-" → goParseInt v = some i →
        typeifyParsedLine ((k, v) :: pl) = (k, .int i) :: typeifyParsedLine pl) ∧
    (∀ (pl : List (String × String)) (k v : String),
        goContains v '.' = true → goParseFloat v = none →
        typeifyParsedLine ((k, v) :: pl) = (k, .str v) :: typeifyParsedLine pl) ∧
    (∀ (pl : List (String × String)) (k v : String),
        goContains v '.' = false → v ≠ "-" → goParseInt v = none →
        typeifyParsedLine ((k, v) :: pl) = (k, .str v) :: typeifyParsedLine pl) ∧
    (∀ (v : String) (i : Int), goParseInt v = some i → goContains v '.' = false) ∧
    typeifyParsedLine [("status", "200")] = [("status", .int 200)] ∧
    typeifyParsedLine [("request_time", "0.123")] =
      [("request_time", .float (mkRat 123 1000))] ∧
    typeifyParsedLine [("upstream_addr", "-")] = [] ∧
    typeifyParsedLine [("upstream_addr", "10.0.0.1")] =
      [("upstream_addr", .str "10.0.0.1")] := by
  refine ⟨?_, ?_, ?_, ?_, ?_, goParseInt_no_dot,
    by decide, by decide, by decide, by decide⟩
  · intro pl k
    simp [typeifyParsedLine, List.filterMap_cons,
      show typeifyEntry "-" = none from by decide]
  · intro pl k v q hdot hq
    simp [typeifyParsedLine, List.filterMap_cons, typeifyEntry, hdot, hq]
  · intro pl k v i hdot hne hi
    have he : typeifyEntry v = some (.int i) := by
      unfold typeifyEntry
      rw [hdot]
      simp only [Bool.false_eq_true, if_false, if_neg hne, hi]
    simp [typeifyParsedLine, List.filterMap_cons, he]
  · intro pl k v hdot hq
    simp [typeifyParsedLine, List.filterMap_cons, typeifyEntry, hdot, hq]
  · intro pl k v hdot hne hi
    have he : typeifyEntry v = some (.str v) := by
      unfold typeifyEntry
      rw [hdot]
      simp only [Bool.false_eq_true, if_false, if_neg hne, hi]
    simp [typeifyParsedLine, List.filterMap_cons, he]

/-- Witness for claim C4: the float clause applied at the value `2.5`. -/
theorem claim_c4_witness :
    typeifyParsedLine [("t", "2.5")] = [("t", FieldValue.float (mkRat 5 2))] :=
  claim_c4_type_coercion.2.1 [] "t" "2.5" (mkRat 5 2) (by decide) (by decide)

/-- Claim C5: a raw request string splits on spaces into exactly three
tokens, with the target parsed under standard URL path/query semantics
(the spec's two examples included); any request string that does not
split into exactly three tokens is rejected. -/
theorem claim_c5_request_target :
    requestStringToReq "GET /foo/bar?x=1 HTTP/1.1" =
      some ⟨"GET", "/foo/bar", "x=1"⟩ ∧
    requestStringToReq "GET HTTP/1.1" = none ∧
    (∀ s : String, (splitOn ' ' s.data).length ≠ 3 → requestStringToReq s = none) ∧
    (∀ (s : String) (m t p : List Char), splitOn ' ' s.data = [m, t, p] →
        requestStringToReq s =
          some ⟨String.mk m, (urlPathQuery t).1, (urlPathQuery t).2⟩) := by
  refine ⟨by decide, by decide, ?_, ?_⟩
  · intro s hlen
    unfold requestStringToReq
    rcases hsp : splitOn ' ' s.data with _ | ⟨a, _ | ⟨b, _ | ⟨c, _ | ⟨d, e⟩⟩⟩⟩
    · rfl
    · rfl
    · rfl
    · exact absurd (by rw [hsp]; rfl) hlen
    · rfl
  · intro s m t p hsp
    unfold requestStringToReq
    rw [hsp]

/-- Witness for claim C5: the rejection clause applied at a four-token
request string. -/
theorem claim_c5_witness : requestStringToReq "a b c d" = none :=
  claim_c5_request_target.2.2.1 "a b c d" (by decide)

/-- Claim C6: after adding N non-nil records with non-nil `Request`
sharing one group key to a fresh collector, the histogram total for the
key is N, the timeout counters record N totals and one count per
timed-out record, and the latency bucket holds exactly the non-timed-out
records' samples in order. -/
theorem claim_c6_aggregation (rs : List NginxResult) (key : String)
    (h : ∀ r ∈ rs, ∃ req, r.Request = some req ∧ req.Path = key) :
    histTotal (histAt (addLines (rs.map some)) key) = rs.length ∧
    (timedOutAt (addLines (rs.map some)) key).Total = rs.length ∧
    (timedOutAt (addLines (rs.map some)) key).Count =
      (rs.filter (fun r => r.TimedOut)).length ∧
    latencyAt (addLines (rs.map some)) key =
      (rs.filter (fun r => !r.TimedOut)).map
        (fun r => ⟨r.RequestTime, r.TimeLocal⟩) := by
  have hfold : addLines (rs.map some) =
      rs.foldl (fun a r => addLine a (some r) "") emptyCollector := by
    unfold addLines
    rw [List.foldl_map]
  obtain ⟨a1, a2, a3, a4⟩ := addLines_accum rs key h emptyCollector
  rw [hfold]
  refine ⟨?_, ?_, ?_, ?_⟩
  · rw [a1, show histTotal (histAt emptyCollector key) = 0 from rfl]
    omega
  · rw [a2, show (timedOutAt emptyCollector key).Total = 0 from rfl]
    omega
  · rw [a3, show (timedOutAt emptyCollector key).Count = 0 from rfl]
    omega
  · rw [a4, show latencyAt emptyCollector key = [] from rfl]
    simp

/-- Witness for claim C6: three records (two ok, one timed out) on the
same path. -/
theorem claim_c6_witness :
    histTotal (histAt (addLines ([recOkW, recTimeoutW, recOkW].map some)) "/svc") = 3 ∧
    (timedOutAt (addLines ([recOkW, recTimeoutW, recOkW].map some)) "/svc").Total = 3 ∧
    (timedOutAt (addLines ([recOkW, recTimeoutW, recOkW].map some)) "/svc").Count = 1 ∧
    latencyAt (addLines ([recOkW, recTimeoutW, recOkW].map some)) "/svc" =
      [⟨mkRat 1 2, zeroGoTime⟩, ⟨mkRat 1 2, zeroGoTime⟩] := by
  have h := claim_c6_aggregation [recOkW, recTimeoutW, recOkW] "/svc"
    (by
      intro r hr
      simp only [List.mem_cons, List.not_mem_nil, or_false] at hr
      rcases hr with rfl | rfl | rfl
      · exact ⟨reqW, rfl, rfl⟩
      · exact ⟨reqW, rfl, rfl⟩
      · exact ⟨reqW, rfl, rfl⟩)
  exact ⟨h.1, h.2.1, h.2.2.1.trans (by decide), h.2.2.2.trans (by decide)⟩

/-- Counterexample for claim C7: in `overThresholdState` exactly one
sample (latency 3) strictly exceeds 2 time units, but the summary's
high-latency count is 0 — the code compares against 2000, not 2. -/
theorem claim_c7_counterexample :
    samplesOver 2 overThresholdState = 1 ∧
    (getInfo overThresholdState).2.numOver2s = 0 ∧
    (getInfo overThresholdState).2.numOver2s ≠ samplesOver 2 overThresholdState := by
  exact ⟨by decide, by decide, by decide⟩

/-- Claim C7 amended: the summary reports the count — and its percentage
of all tracked samples — of latency samples strictly above the fixed
threshold 2000 (in the unit `request_time` is stored in). -/
theorem claim_c7_amended (m : MetricCollector) :
    (getInfo m).2.numOver2s = samplesOver 2000 m ∧
    (getInfo m).2.countReqs = countTracked m ∧
    (getInfo m).2.pctOver2s =
      100 * (samplesOver 2000 m : Rat) / (countTracked m : Rat) := by
  have h1 : (getInfo m).2.numOver2s = samplesOver 2000 m := by
    have e : (getInfo m).2.numOver2s =
        m.latencyData.foldl (fun n pb =>
          pb.2.Latencies.foldl
            (fun n2 l => if (2000 : Rat) < l.latency then n2 + 1 else n2) n) 0 := rfl
    rw [e, foldl_buckets_count]
    simp [samplesOver]
  have h2 : (getInfo m).2.countReqs = countTracked m := by
    have e : (getInfo m).2.countReqs =
        m.latencyData.foldl (fun n pb => n + pb.2.Latencies.length) 0 := rfl
    rw [e, foldl_add_eq_sum
      (fun pb : String × LatencyMetricList => pb.2.Latencies.length)
      m.latencyData 0]
    simp [countTracked]
  refine ⟨h1, h2, ?_⟩
  have e : (getInfo m).2.pctOver2s =
      100 * ((getInfo m).2.numOver2s : Rat) / ((getInfo m).2.countReqs : Rat) := rfl
  rw [e, h1, h2]

/-- Claim C8: a group appears in the response-code section exactly when
its histogram total strictly exceeds 100 and holds some status at least
400, and in the timeout section exactly when its timeout count is
positive and its total strictly exceeds 100 — so a group with total at
most 100 never appears in either. -/
theorem claim_c8_threshold_filters (m : MetricCollector) (g : String)
    (b : ResponseMetric) (tm : TimedOutMetric) :
    ((g, b) ∈ (getInfo m).2.respSection ↔
      (g, b) ∈ m.responseData ∧ (∃ cn ∈ b, 400 ≤ cn.1) ∧ 100 < histTotal b) ∧
    ((g, tm) ∈ (getInfo m).2.timeoutSection ↔
      (g, tm) ∈ m.timedOutData ∧ 0 < tm.Count ∧ 100 < tm.Total) := by
  constructor
  · have hsec : (getInfo m).2.respSection = m.responseData.filter (fun pb =>
        (pb.2.foldl (fun a cn => a || decide (400 ≤ cn.1)) false) &&
        decide (100 < pb.2.foldl (fun t cn => t + cn.2) 0)) := rfl
    have hsum : ∀ bb : ResponseMetric,
        bb.foldl (fun t cn => t + cn.2) 0 = histTotal bb := by
      intro bb
      rw [foldl_add_eq_sum (fun cn : Int × Nat => cn.2) bb 0]
      simp [histTotal]
    rw [hsec, List.mem_filter]
    simp [foldl_or_eq_any, hsum, List.any_eq_true, and_assoc]
  · have hsec : (getInfo m).2.timeoutSection = m.timedOutData.filter (fun ptm =>
        decide (0 < ptm.2.Count) && decide (100 < ptm.2.Total)) := rfl
    rw [hsec, List.mem_filter]
    simp [and_assoc]

/-- Claim C9: the summary is read-only and idempotent — it leaves all
three aggregate maps unchanged, and a second call without an intervening
add yields the same report. -/
theorem claim_c9_summarize_readonly (m : MetricCollector) :
    (getInfo m).1 = m ∧
    (getInfo m).1.latencyData = m.latencyData ∧
    (getInfo m).1.responseData = m.responseData ∧
    (getInfo m).1.timedOutData = m.timedOutData ∧
    (getInfo (getInfo m).1).2 = (getInfo m).2 :=
  ⟨rfl, rfl, rfl, rfl, rfl⟩

end NginxIngress
